import Mathlib

/-!
Verification development for the kubernetes-network-drivers repository:
shallow embedding of the hostdevice driver, the node-agent driver, the
macvlan/ipvlan sub-interface helpers and the sample reconciler, together
with proofs about their behaviour.
-/

namespace KND

/-! ## String helpers (explicit List Char versions of strings.HasPrefix / contains) -/

/-- listStartsWith pat s: does s start with pat (Go strings.HasPrefix)? -/
def listStartsWith : List Char → List Char → Bool
  | [], _ => true
  | _ :: _, [] => false
  | a :: pa, b :: pb => a == b && listStartsWith pa pb

def strStartsWith (pat s : String) : Bool :=
  listStartsWith pat.data s.data

/-- containsL pat s: does pat occur as a contiguous substring of s? -/
def containsL (pat : List Char) : List Char → Bool
  | [] => listStartsWith pat []
  | b :: rest => listStartsWith pat (b :: rest) || containsL pat rest

def strContainsSub (s pat : String) : Bool :=
  containsL pat.data s.data

/-! ## Data model: resource claims (k8s.io/api/resource/v1, fields used by the drivers) -/

structure DeviceRequestAllocationResult where
  request : String
  driverName : String
  pool : String
  device : String
deriving DecidableEq, Repr

structure DeviceAllocationResult where
  results : List DeviceRequestAllocationResult
deriving DecidableEq, Repr

structure AllocationResult where
  devices : DeviceAllocationResult
deriving DecidableEq, Repr

structure ResourceClaimStatus where
  allocation : Option AllocationResult
deriving DecidableEq, Repr

structure ResourceClaim where
  name : String
  uid : String
  status : ResourceClaimStatus
deriving DecidableEq, Repr

/-! ## Link model (vishvananda/netlink attributes used by the drivers) -/

/-- Kind of a netlink link: physical, or a macvlan/ipvlan slave of a parent index. -/
inductive LinkKind where
  | physical
  | macvlanK (parentIndex : Nat)
  | ipvlanK (parentIndex : Nat)
deriving DecidableEq, Repr

/-- A network link together with the namespace it currently lives in
(hostNsPath for the host namespace). -/
structure Link where
  name : String
  index : Nat
  ns : String
  kind : LinkKind
  up : Bool
  loopback : Bool
  hwAddr : String
  vlanMode : Nat
deriving DecidableEq, Repr

/-- The host network namespace is denoted by the empty path. -/
def hostNsPath : String := ""

/-- Kernel-side network state: the set of live container namespaces
(by path) and all links with the namespace each lives in. -/
structure NetState where
  namespaces : List String
  links : List Link
deriving DecidableEq, Repr

def findLink (st : NetState) (ns name : String) : Option Link :=
  st.links.find? (fun l => l.ns == ns && l.name == name)

def hostLinks (st : NetState) : List Link :=
  st.links.filter (fun l => l.ns == hostNsPath)

/-! ## hostdeviceDriver.GetDevices (src/drivers/hostdevice/main.go) -/

structure Device where
  name : String
  attributes : List (String × String)
deriving DecidableEq, Repr

def linkToDevice (l : Link) : Device :=
  { name := l.name
    attributes := [("interface-name", l.name), ("mac-address", l.hwAddr)] }

/-- The loop body of GetDevices: skip loopback, down, and veth/docker/cni
named interfaces; publish the rest. -/
def getDevicesLoop : List Link → List Device
  | [] => []
  | l :: rest =>
    if l.loopback || !l.up then getDevicesLoop rest
    else if strStartsWith "veth" l.name || strStartsWith "docker" l.name
        || strStartsWith "cni" l.name then getDevicesLoop rest
    else linkToDevice l :: getDevicesLoop rest

/-- GetDevices over a successful netlink.LinkList enumeration of the host links. -/
def getDevices (links : List Link) : Except String (List Device) :=
  Except.ok (getDevicesLoop links)

/-- The filtering predicate GetDevices implements, read off the loop. -/
def eligibleLink (l : Link) : Bool :=
  !l.loopback && l.up
    && !(strStartsWith "veth" l.name) && !(strStartsWith "docker" l.name)
    && !(strStartsWith "cni" l.name)

/-! ## hostdeviceDriver.PrepareDevice / nodeAgentDriver.PrepareDevice -/

def noAllocatedDevicesMsg (claimName : String) : String :=
  "claim " ++ claimName ++ " has no allocated devices"

/-- hostdeviceDriver.PrepareDevice: fail when the claim has no allocation or
an empty result list, otherwise return the first allocated device name. -/
def hostdevicePrepareDevice (claim : ResourceClaim) : Except String String :=
  match claim.status.allocation with
  | none => Except.error (noAllocatedDevicesMsg claim.name)
  | some alloc =>
    match alloc.devices.results with
    | [] => Except.error (noAllocatedDevicesMsg claim.name)
    | r :: _ => Except.ok r.device

/-- The special resource file written by the node agent driver. -/
structure AgentFile where
  content : String
deriving DecidableEq, Repr

/-- nodeAgentDriver.PrepareDevice: writes the claim UID to the resource file
on every call and returns the UID. Result: (returned prepared data, file
state after the call, number of file writes performed by the call). -/
def nodeAgentPrepareDevice (claim : ResourceClaim) (_f : AgentFile) :
    Except String String × AgentFile × Nat :=
  (Except.ok claim.uid, { content := claim.uid }, 1)

/-- hostdeviceDriver.PrepareDevice performs no file or namespace operation;
stateful wrapper recording that (file unchanged, zero writes). -/
def hostdevicePrepareStep (claim : ResourceClaim) (f : AgentFile) :
    Except String String × AgentFile × Nat :=
  (hostdevicePrepareDevice claim, f, 0)

/-- Two sequential nodeAgent PrepareDevice calls for the same claim:
(first result, second result, final file state, total writes). -/
def nodeAgentPrepareTwice (claim : ResourceClaim) (f : AgentFile) :
    Except String String × Except String String × AgentFile × Nat :=
  (((nodeAgentPrepareDevice claim f).1,
    (nodeAgentPrepareDevice claim (nodeAgentPrepareDevice claim f).2.1).1,
    (nodeAgentPrepareDevice claim (nodeAgentPrepareDevice claim f).2.1).2.1,
    (nodeAgentPrepareDevice claim f).2.2
      + (nodeAgentPrepareDevice claim (nodeAgentPrepareDevice claim f).2.1).2.2))

/-! ## Kernel link operations and pkg/net sub-interface helpers -/

/-- netns.GetFromPath: resolve a namespace path, failing when it does not exist. -/
def netnsGetFromPath (st : NetState) (path : String) : Option String :=
  if st.namespaces.contains path then some path else none

def hasLinkKey (st : NetState) (ns name : String) : Bool :=
  st.links.any (fun l => l.ns == ns && l.name == name)

def ipvlanSlaveOn (parentIndex : Nat) (l : Link) : Bool :=
  match l.kind with
  | .ipvlanK p => p == parentIndex
  | _ => false

def macvlanSlaveOn (parentIndex : Nat) (l : Link) : Bool :=
  match l.kind with
  | .macvlanK p => p == parentIndex
  | _ => false

def fileExistsMsg : String := "file exists"

def deviceBusyMsg : String := "device or resource busy"

/-- netlink.LinkAdd kernel semantics for the links this repository creates:
a name clash in the target namespace is EEXIST; a macvlan (resp. ipvlan)
slave on a parent that already carries a slave of the other kind is EBUSY
(only one of the two kinds can be active on one parent); otherwise the link
is added to the requested namespace. The kernel error strings never name the
conflicting existing slave. -/
def kernelLinkAdd (st : NetState) (l : Link) : Except String NetState :=
  if hasLinkKey st l.ns l.name then Except.error fileExistsMsg
  else
    match l.kind with
    | .macvlanK p =>
      if st.links.any (ipvlanSlaveOn p) then Except.error deviceBusyMsg
      else Except.ok { st with links := st.links ++ [l] }
    | .ipvlanK p =>
      if st.links.any (macvlanSlaveOn p) then Except.error deviceBusyMsg
      else Except.ok { st with links := st.links ++ [l] }
    | .physical => Except.ok { st with links := st.links ++ [l] }

def freshIndex (st : NetState) : Nat :=
  st.links.foldr (fun l acc => max acc l.index) 0 + 1

/-- The macvlan slave link addMacVlan builds: named "mavlan-"++dev, parented
to parentIndex, placed in the container namespace. -/
def macvlanSlaveOf (st : NetState) (containerNs dev : String) (mode : Nat)
    (parentIndex : Nat) : Link :=
  { name := "mavlan-" ++ dev, index := freshIndex st, ns := containerNs,
    kind := .macvlanK parentIndex, up := false, loopback := false,
    hwAddr := "", vlanMode := mode }

/-- The ipvlan slave link addIPVlan builds: named "ipvaln-"++dev, parented
to parentIndex, placed in the container namespace. -/
def ipvlanSlaveOf (st : NetState) (containerNs dev : String) (mode : Nat)
    (parentIndex : Nat) : Link :=
  { name := "ipvaln-" ++ dev, index := freshIndex st, ns := containerNs,
    kind := .ipvlanK parentIndex, up := false, loopback := false,
    hwAddr := "", vlanMode := mode }

/-- addMacVlan (src/pkg/net/subinterfaces.go): resolve the container
namespace, look up the parent in the host namespace, then LinkAdd a macvlan
named "mavlan-"++devName parented to it and placed in the container
namespace. A LinkAdd failure is wrapped in a generic creation error naming
the new slave. Returns (state after the call, error if any). -/
def addMacVlan (st : NetState) (containerNsPath devName : String) (mode : Nat) :
    NetState × Option String :=
  match netnsGetFromPath st containerNsPath with
  | none =>
    (st, some ("could not get network namespace from path " ++ containerNsPath
      ++ " for network device " ++ devName ++ " : file does not exist"))
  | some containerNs =>
    match findLink st hostNsPath devName with
    | none => (st, some ("could not find parent interface " ++ devName ++ " : Link not found"))
    | some parentLink =>
      match kernelLinkAdd st (macvlanSlaveOf st containerNs devName mode parentLink.index) with
      | Except.error e =>
        (st, some ("failed to create the " ++ ("mavlan-" ++ devName)
          ++ " macvlan interface: " ++ e))
      | Except.ok st2 => (st2, none)

/-- addIPVlan (src/pkg/net/subinterfaces.go): same shape as addMacVlan with
an ipvlan slave named "ipvaln-"++devName. -/
def addIPVlan (st : NetState) (containerNsPath devName : String) (mode : Nat) :
    NetState × Option String :=
  match netnsGetFromPath st containerNsPath with
  | none =>
    (st, some ("could not get network namespace from path " ++ containerNsPath
      ++ " for network device " ++ devName ++ " : file does not exist"))
  | some containerNs =>
    match findLink st hostNsPath devName with
    | none => (st, some ("could not find parent interface " ++ devName ++ " : Link not found"))
    | some parentLink =>
      match kernelLinkAdd st (ipvlanSlaveOf st containerNs devName mode parentLink.index) with
      | Except.error e =>
        (st, some ("failed to create the " ++ ("ipvaln-" ++ devName)
          ++ " ipvlan interface: " ++ e))
      | Except.ok st2 => (st2, none)

/-! ## NamespaceMover direct moves -/

/-- Modelled from the spec: pkg/net NsAttachNetdev (called by
hostdeviceDriver.ConfigureDeviceForPod but not present under src) — the
direct MoveIn: reparent the named host link into the target namespace under
the desired name, failing when the namespace is missing, the host link does
not exist, or the desired name is taken in the target namespace. -/
def nsAttachNetdev (st : NetState) (hostDevName nsPath desiredName : String) :
    NetState × Option String :=
  match netnsGetFromPath st nsPath with
  | none => (st, some ("could not get network namespace from path " ++ nsPath))
  | some containerNs =>
    match findLink st hostNsPath hostDevName with
    | none => (st, some ("link " ++ hostDevName ++ " not found in host namespace"))
    | some l =>
      match findLink st containerNs desiredName with
      | some _ => (st, some fileExistsMsg)
      | none =>
        ({ st with links := st.links.erase l ++ [{ l with ns := containerNs, name := desiredName }] },
          none)

/-- Modelled from the spec: pkg/net NsDetachNetdev (called by
hostdeviceDriver.CleanupDeviceForPod but not present under src) — the direct
MoveOut: reparent the link back to the host namespace under its original
name. A vanished namespace or an already-absent device is treated as
successful cleanup; a host-side name clash fails. -/
def nsDetachNetdev (st : NetState) (nsPath currentName hostName : String) :
    NetState × Option String :=
  match netnsGetFromPath st nsPath with
  | none => (st, none)
  | some containerNs =>
    match findLink st containerNs currentName with
    | none => (st, none)
    | some l =>
      match findLink st hostNsPath hostName with
      | some _ => (st, some fileExistsMsg)
      | none =>
        ({ st with links := st.links.erase l ++ [{ l with ns := hostNsPath, name := hostName }] },
          none)

/-- Modelled from the spec: MoveOut for the sub-interface modes deletes the
slave link in the target namespace; a vanished namespace or already-absent
slave is successful cleanup. -/
def deleteSlaveLink (st : NetState) (nsPath name : String) : NetState × Option String :=
  match netnsGetFromPath st nsPath with
  | none => (st, none)
  | some containerNs =>
    match findLink st containerNs name with
    | none => (st, none)
    | some l => ({ st with links := st.links.erase l }, none)

/-- Modelled from the spec: the NamespaceMover mode parameter. -/
inductive MoveMode where
  | direct
  | macvlanMode
  | ipvlanMode
deriving DecidableEq, Repr

/-- Name under which the moved or created interface lives in the target
namespace: the desired name for a direct move, the generated slave name for
the sub-interface modes. -/
def targetIfaceName (mode : MoveMode) (hostDevName desiredName : String) : String :=
  match mode with
  | .direct => desiredName
  | .macvlanMode => "mavlan-" ++ hostDevName
  | .ipvlanMode => "ipvaln-" ++ hostDevName

/-- Modelled from the spec: NamespaceMover.MoveIn dispatching on the mode. -/
def moveIn (st : NetState) (hostDevName nsPath desiredName : String) :
    MoveMode → NetState × Option String
  | .direct => nsAttachNetdev st hostDevName nsPath desiredName
  | .macvlanMode => addMacVlan st nsPath hostDevName 0
  | .ipvlanMode => addIPVlan st nsPath hostDevName 0

/-- Modelled from the spec: NamespaceMover.MoveOut dispatching on the mode. -/
def moveOut (st : NetState) (nsPath currentName hostName : String) :
    MoveMode → NetState × Option String
  | .direct => nsDetachNetdev st nsPath currentName hostName
  | .macvlanMode => deleteSlaveLink st nsPath currentName
  | .ipvlanMode => deleteSlaveLink st nsPath currentName

/-! ## hostdeviceDriver NRI hooks (ConfigureDeviceForPod / CleanupDeviceForPod) -/

/-- A dynamically typed Go value, as carried by the preparedData interface
argument of the NRI hooks. -/
inductive GoValue where
  | str (s : String)
  | num (n : Int)
  | nilv
deriving DecidableEq, Repr

/-- The Go runtime type name printed by the %T verb. -/
def goTypeName : GoValue → String
  | .str _ => "string"
  | .num _ => "int"
  | .nilv => "<nil>"

def invalidPreparedDataMsg (preparedData : GoValue) : String :=
  "invalid prepared data type: expected string, got " ++ goTypeName preparedData

structure AllocatedDevice where
  name : String
  attributes : List (String × String)
  poolName : String
  request : String
deriving DecidableEq, Repr

structure PodSandbox where
  namespaceName : String
  name : String
deriving DecidableEq, Repr

/-- hostdeviceDriver.ConfigureDeviceForPod: reject non-string preparedData,
otherwise NsAttachNetdev the named host device into the pod namespace under
the same name. -/
def configureDeviceForPod (_device : AllocatedDevice) (st : NetState)
    (networkNamespace : String) (_podSandbox : PodSandbox) (preparedData : GoValue) :
    NetState × Option String :=
  match preparedData with
  | .str hostDeviceName => nsAttachNetdev st hostDeviceName networkNamespace hostDeviceName
  | pd => (st, some (invalidPreparedDataMsg pd))

/-- hostdeviceDriver.CleanupDeviceForPod: reject non-string preparedData,
otherwise NsDetachNetdev the device back to the host namespace. -/
def cleanupDeviceForPod (_device : AllocatedDevice) (st : NetState)
    (networkNamespace : String) (_podSandbox : PodSandbox) (preparedData : GoValue) :
    NetState × Option String :=
  match preparedData with
  | .str hostDeviceName => nsDetachNetdev st networkNamespace hostDeviceName hostDeviceName
  | pd => (st, some (invalidPreparedDataMsg pd))

/-! ## SandboxHookDispatcher Configuring transition -/

/-- Modelled from the spec: the plugin framework's Configuring transition
(the plugin implementation behind driver.NewPlugin is not under src) —
MoveIn each allocated device of the workload in order; when a later move
fails, every device already moved is moved back to the host namespace before
the failure is reported upward. Each per-device move is the hostdevice
driver's direct move with the pod name equal to the host name. -/
def configureDevices (st : NetState) (nsPath : String) : List String → NetState × Option String
  | [] => (st, none)
  | d :: rest =>
    match nsAttachNetdev st d nsPath d with
    | (st1, some e) => (st1, some e)
    | (st1, none) =>
      match configureDevices st1 nsPath rest with
      | (st2, none) => (st2, none)
      | (st2, some e) => ((nsDetachNetdev st2 nsPath d d).1, some e)

/-- Wellformedness of a kernel network state: link (namespace, name) keys
are pairwise distinct, every link lives in the host namespace or in a live
container namespace, and the host namespace is not among the container
namespace paths. -/
def WFNet (st : NetState) : Prop :=
  st.links.Pairwise (fun a b => a.ns ≠ b.ns ∨ a.name ≠ b.name)
    ∧ (∀ l ∈ st.links, l.ns = hostNsPath ∨ l.ns ∈ st.namespaces)
    ∧ hostNsPath ∉ st.namespaces

instance (st : NetState) : Decidable (WFNet st) := by
  unfold WFNet
  infer_instance

/-! ## AllocationCoordinator unprepare path -/

/-- Outcome of a driver UnprepareDevice call: its error, the number of
namespace operations it performed, and the file contents it wrote. -/
structure UnprepareOutcome where
  err : Option String
  nsOps : Nat
  fileWrites : List String
deriving DecidableEq, Repr

/-- hostdeviceDriver.UnprepareDevice: a no-op that returns success. -/
def hostdeviceUnprepareDevice (_claimName : String) : UnprepareOutcome :=
  { err := none, nsOps := 0, fileWrites := [] }

/-- nodeAgentDriver.UnprepareDevice: clears the resource file (one file
write, no namespace operation) and returns success. -/
def nodeAgentUnprepareDevice (_claimName : String) : UnprepareOutcome :=
  { err := none, nsOps := 0, fileWrites := [""] }

/-- The per-workload prepared-state table (SharedState.PreparedData). -/
structure PreparedTable where
  entries : List (String × String)
deriving DecidableEq, Repr

def lookupPrepared (t : PreparedTable) (uid : String) : Option String :=
  (t.entries.find? (fun e => e.1 == uid)).map (fun e => e.2)

def removePrepared (t : PreparedTable) (uid : String) : PreparedTable :=
  { entries := t.entries.filter (fun e => !(e.1 == uid)) }

/-- Modelled from the spec: the framework-level UnprepareDevice around a
driver (the plugin implementation is not under src) — when no PreparedState
exists for the UID it returns success immediately without invoking the
driver; otherwise it runs the driver unprepare and on success removes the
PreparedState entry. -/
def frameworkUnprepare (driverUnprepare : String → UnprepareOutcome)
    (t : PreparedTable) (uid : String) : PreparedTable × UnprepareOutcome :=
  match lookupPrepared t uid with
  | none => (t, { err := none, nsOps := 0, fileWrites := [] })
  | some _ =>
    match (driverUnprepare uid).err with
    | none => (removePrepared t uid, driverUnprepare uid)
    | some e => (t, { err := some e, nsOps := (driverUnprepare uid).nsOps,
                      fileWrites := (driverUnprepare uid).fileWrites })

/-! ## sampleReconciler (src/drivers/subinterface/controlller/main.go) -/

/-- A Kubernetes API error as observed through apimachinery errors. -/
inductive APIErr where
  | notFound
  | internalErr (msg : String)
deriving DecidableEq, Repr

def errorsIsNotFound : APIErr → Bool
  | .notFound => true
  | _ => false

/-- The cluster's ResourceSlice store, by slice name. -/
structure ClusterState where
  slices : List String
deriving DecidableEq, Repr

/-- ResourceSlices().Delete: remove the named slice, or report NotFound. -/
def resourceSlicesDeleteCall (cs : ClusterState) (name : String) :
    ClusterState × Option APIErr :=
  if cs.slices.contains name then ({ slices := cs.slices.erase name }, none)
  else (cs, some APIErr.notFound)

def controllerName : String := "sample-controller"

/-- sampleReconciler.getResourceSliceName: deterministic slice name. -/
def getResourceSliceName (claim : ResourceClaim) : String :=
  controllerName ++ "-" ++ claim.uid

/-- sampleReconciler.Delete: delete the slice, treating NotFound as success
and wrapping any other error. -/
def sampleReconcilerDelete (cs : ClusterState) (claim : ResourceClaim) :
    ClusterState × Option String :=
  match resourceSlicesDeleteCall cs (getResourceSliceName claim) with
  | (cs1, some e) =>
    if errorsIsNotFound e then (cs1, none)
    else (cs1, some ("failed to delete ResourceSlice " ++ getResourceSliceName claim))
  | (cs1, none) => (cs1, none)

/-! ## Concrete instances used in scenarios -/

def eth0L : Link :=
  { name := "eth0", index := 1, ns := hostNsPath, kind := .physical, up := true,
    loopback := false, hwAddr := "aa:bb:cc:dd:ee:01", vlanMode := 0 }

def mavlanL : Link :=
  { name := "mavlan-eth0", index := 5, ns := "/run/netns/pod1", kind := .macvlanK 1,
    up := true, loopback := false, hwAddr := "aa:bb:cc:dd:ee:05", vlanMode := 0 }

def ipvlanSlaveL : Link :=
  { name := "ipvaln-eth0", index := 6, ns := "/run/netns/pod1", kind := .ipvlanK 1,
    up := true, loopback := false, hwAddr := "aa:bb:cc:dd:ee:06", vlanMode := 0 }

/-- Host with eth0 up and an ipvlan slave of eth0 active in pod1. -/
def stA2 : NetState :=
  { namespaces := ["/run/netns/pod1", "/run/netns/pod2"], links := [eth0L, ipvlanSlaveL] }

/-- Host with eth0 up and a macvlan slave of eth0 active in pod1. -/
def stA : NetState :=
  { namespaces := ["/run/netns/pod1", "/run/netns/pod2"], links := [eth0L, mavlanL] }

def eth1L : Link :=
  { name := "eth1", index := 2, ns := hostNsPath, kind := .physical, up := true,
    loopback := false, hwAddr := "aa:bb:cc:dd:ee:02", vlanMode := 0 }

/-- Host with only eth1 up, one pod namespace. -/
def stB : NetState :=
  { namespaces := ["/run/netns/pod1"], links := [eth1L] }

def loLinkC : Link :=
  { name := "lo", index := 1, ns := hostNsPath, kind := .physical, up := true,
    loopback := true, hwAddr := "00:00:00:00:00:00", vlanMode := 0 }

def eth0DownC : Link :=
  { name := "eth0", index := 2, ns := hostNsPath, kind := .physical, up := false,
    loopback := false, hwAddr := "aa:bb:cc:dd:ee:03", vlanMode := 0 }

def allocResultA : DeviceRequestAllocationResult :=
  { request := "req-0", driverName := "hostdevice.k8s.io", pool := "node-pool", device := "eth1" }

/-- A claim with one bound device. -/
def cClaimA : ResourceClaim :=
  { name := "claim-a", uid := "uid-1",
    status := { allocation := some { devices := { results := [allocResultA] } } } }

/-- A claim whose allocation is absent. -/
def claimNoAlloc : ResourceClaim :=
  { name := "claim-b", uid := "uid-2", status := { allocation := none } }

def agentFile0 : AgentFile := { content := "" }

def tblC : PreparedTable := { entries := [("uid-1", "eth1")] }

def csEmpty : ClusterState := { slices := [] }

def allocDevC : AllocatedDevice :=
  { name := "eth1", attributes := [("interface-name", "eth1")],
    poolName := "node-pool", request := "req-0" }

def sbC : PodSandbox := { namespaceName := "default", name := "pod-a" }

/-! ## Helper lemmas -/

theorem findLink_some {st : NetState} {ns name : String} {l : Link}
    (h : findLink st ns name = some l) : l ∈ st.links ∧ l.ns = ns ∧ l.name = name := by
  refine ⟨List.mem_of_find?_eq_some h, ?_, ?_⟩
  · have := List.find?_some h
    simp only [Bool.and_eq_true, beq_iff_eq] at this
    exact this.1
  · have := List.find?_some h
    simp only [Bool.and_eq_true, beq_iff_eq] at this
    exact this.2

theorem findLink_eq_none {st : NetState} {ns name : String} :
    findLink st ns name = none ↔ ∀ l ∈ st.links, ¬(l.ns = ns ∧ l.name = name) := by
  unfold findLink
  rw [List.find?_eq_none]
  constructor
  · intro h l hl hc
    exact h l hl (by simp [hc.1, hc.2])
  · intro h l hl hc
    simp only [Bool.and_eq_true, beq_iff_eq] at hc
    exact h l hl hc

theorem getDevicesLoop_eq (links : List Link) :
    getDevicesLoop links = (links.filter eligibleLink).map linkToDevice := by
  induction links with
  | nil => rfl
  | cons l rest ih =>
    simp only [getDevicesLoop, List.filter_cons]
    by_cases h1 : (l.loopback || !l.up) = true
    · have he : eligibleLink l = false := by
        rcases Bool.or_eq_true_iff.1 h1 with h | h
        · simp [eligibleLink, h]
        · simp only [Bool.not_eq_true'] at h
          simp [eligibleLink, h]
      rw [if_pos h1, he, ih]
      simp
    · by_cases h2 : (strStartsWith "veth" l.name || strStartsWith "docker" l.name
          || strStartsWith "cni" l.name) = true
      · have he : eligibleLink l = false := by
          rcases Bool.or_eq_true_iff.1 h2 with h | h
          · rcases Bool.or_eq_true_iff.1 h with h3 | h3 <;> simp [eligibleLink, h3]
          · simp [eligibleLink, h]
        rw [if_neg h1, if_pos h2, he, ih]
        simp
      · have hl1 : l.loopback = false := by
          cases hb : l.loopback
          · rfl
          · exact absurd (by simp [hb]) h1
        have hl2 : l.up = true := by
          cases hb : l.up
          · exact absurd (by simp [hb]) h1
          · rfl
        have he : eligibleLink l = true := by
          simp only [Bool.or_eq_true, not_or, Bool.not_eq_true] at h2
          simp [eligibleLink, hl1, hl2, h2.1.1, h2.1.2, h2.2]
        rw [if_neg h1, if_neg h2, he, ih]
        simp

/-! ## C7 -/

/-- C7: GetDevices keeps exactly the host interfaces that are up, not
loopback, and whose name has no veth/docker/cni virtual prefix; a host with
only a loopback lo and an administratively down eth0 yields an empty device
list with no error. -/
theorem c7_getDevices_filter :
    (∀ (links : List Link) (dev : Device),
      dev ∈ getDevicesLoop links
        ↔ ∃ l ∈ links, eligibleLink l = true ∧ dev = linkToDevice l)
    ∧ getDevices [loLinkC, eth0DownC] = Except.ok [] := by
  constructor
  · intro links dev
    rw [getDevicesLoop_eq]
    simp only [List.mem_map, List.mem_filter]
    constructor
    · rintro ⟨l, ⟨hl, he⟩, hd⟩
      exact ⟨l, hl, he, hd.symm⟩
    · rintro ⟨l, hl, he, hd⟩
      exact ⟨l, ⟨hl, he⟩, hd.symm⟩
  · rfl

/-! ## C5 -/

/-- C5: hostdevice PrepareDevice fails with the no-allocated-devices error
exactly when the claim lacks an allocation or has an empty device result
list; with at least one bound device the error branch is not taken and the
first device name is returned. -/
theorem c5_prepare_no_allocation (claim : ResourceClaim) :
    ((claim.status.allocation = none
        ∨ ∃ a, claim.status.allocation = some a ∧ a.devices.results = []) →
      hostdevicePrepareDevice claim = Except.error (noAllocatedDevicesMsg claim.name))
    ∧ (∀ a r rs, claim.status.allocation = some a → a.devices.results = r :: rs →
        hostdevicePrepareDevice claim = Except.ok r.device) := by
  constructor
  · rintro (h | ⟨a, ha, hr⟩)
    · simp [hostdevicePrepareDevice, h]
    · simp [hostdevicePrepareDevice, ha, hr]
  · intro a r rs ha hr
    simp [hostdevicePrepareDevice, ha, hr]

theorem c5_prepare_no_allocation_witness :
    hostdevicePrepareDevice claimNoAlloc = Except.error (noAllocatedDevicesMsg "claim-b")
    ∧ hostdevicePrepareDevice cClaimA = Except.ok "eth1" :=
  ⟨(c5_prepare_no_allocation claimNoAlloc).1 (Or.inl rfl),
   (c5_prepare_no_allocation cClaimA).2 _ allocResultA [] rfl rfl⟩

/-! ## C1 -/

/-- C1 as stated is false on the node agent driver: the second sequential
PrepareDevice call for the same claim re-executes the file write (one write
per call, two writes in total), even though both calls return bit-identical
prepared state. -/
theorem c1_counterexample :
    (nodeAgentPrepareTwice cClaimA agentFile0).1 = (nodeAgentPrepareTwice cClaimA agentFile0).2.1
    ∧ (nodeAgentPrepareTwice cClaimA agentFile0).2.2.2 = 2
    ∧ ¬(nodeAgentPrepareTwice cClaimA agentFile0).2.2.2 = 1 := by
  refine ⟨rfl, rfl, ?_⟩
  decide

/-- C1 amended: two sequential PrepareDevice calls return bit-identical
prepared state both times; the hostdevice driver executes no side effect on
either call; the node agent driver re-executes its file write on the second
call (two writes in total), but the write is idempotent: the file state
after the second call equals the file state after the first. -/
theorem c1_prepare_idempotent_amended (claim : ResourceClaim) (f : AgentFile) :
    (nodeAgentPrepareTwice claim f).1 = (nodeAgentPrepareTwice claim f).2.1
    ∧ (nodeAgentPrepareTwice claim f).2.2.1 = (nodeAgentPrepareDevice claim f).2.1
    ∧ (nodeAgentPrepareTwice claim f).2.2.2 = 2
    ∧ (hostdevicePrepareStep claim ((hostdevicePrepareStep claim f).2.1)).1
        = (hostdevicePrepareStep claim f).1
    ∧ (hostdevicePrepareStep claim f).2.1 = f
    ∧ (hostdevicePrepareStep claim f).2.2 = 0 :=
  ⟨rfl, rfl, rfl, rfl, rfl, rfl⟩

/-! ## C9 -/

/-- C9: for every preparedData value that is not a string, both
ConfigureDeviceForPod and CleanupDeviceForPod return the invalid-prepared-
data error immediately and leave the namespace state unchanged. -/
theorem c9_invalid_prepared_data (device : AllocatedDevice) (st : NetState)
    (networkNamespace : String) (sb : PodSandbox) (pd : GoValue)
    (h : ∀ s, pd ≠ GoValue.str s) :
    configureDeviceForPod device st networkNamespace sb pd
        = (st, some (invalidPreparedDataMsg pd))
    ∧ cleanupDeviceForPod device st networkNamespace sb pd
        = (st, some (invalidPreparedDataMsg pd)) := by
  cases pd with
  | str s => exact absurd rfl (h s)
  | num n => exact ⟨rfl, rfl⟩
  | nilv => exact ⟨rfl, rfl⟩

theorem c9_invalid_prepared_data_witness :
    configureDeviceForPod allocDevC stB "/run/netns/pod1" sbC (GoValue.num 3)
        = (stB, some (invalidPreparedDataMsg (GoValue.num 3)))
    ∧ cleanupDeviceForPod allocDevC stB "/run/netns/pod1" sbC (GoValue.num 3)
        = (stB, some (invalidPreparedDataMsg (GoValue.num 3))) :=
  c9_invalid_prepared_data allocDevC stB "/run/netns/pod1" sbC (GoValue.num 3)
    (fun _ h => GoValue.noConfusion h)

/-! ## C10 -/

theorem sampleReconcilerDelete_err_none (cs : ClusterState) (claim : ResourceClaim) :
    (sampleReconcilerDelete cs claim).2 = none := by
  unfold sampleReconcilerDelete resourceSlicesDeleteCall
  by_cases h : getResourceSliceName claim ∈ cs.slices <;>
    simp [h, errorsIsNotFound]

/-- C10: the reconciler Delete succeeds when the deterministically named
ResourceSlice (controllerName-claimUID) is already absent (NotFound is
treated as success), and two sequential Delete calls both succeed. -/
theorem c10_reconciler_delete_idempotent (cs : ClusterState) (claim : ResourceClaim) :
    getResourceSliceName claim = controllerName ++ "-" ++ claim.uid
    ∧ (getResourceSliceName claim ∉ cs.slices → sampleReconcilerDelete cs claim = (cs, none))
    ∧ (sampleReconcilerDelete cs claim).2 = none
    ∧ (sampleReconcilerDelete (sampleReconcilerDelete cs claim).1 claim).2 = none := by
  refine ⟨rfl, ?_, sampleReconcilerDelete_err_none cs claim,
    sampleReconcilerDelete_err_none _ claim⟩
  intro hmem
  unfold sampleReconcilerDelete resourceSlicesDeleteCall
  simp [hmem, errorsIsNotFound]

theorem c10_reconciler_delete_idempotent_witness :
    sampleReconcilerDelete csEmpty cClaimA = (csEmpty, none) :=
  (c10_reconciler_delete_idempotent csEmpty cClaimA).2.1 (by simp [csEmpty])

/-! ## C6 -/

theorem lookupPrepared_remove (t : PreparedTable) (uid : String) :
    lookupPrepared (removePrepared t uid) uid = none := by
  unfold lookupPrepared removePrepared
  have h : List.find? (fun e => e.1 == uid)
      (t.entries.filter (fun e => !(e.1 == uid))) = none := by
    rw [List.find?_eq_none]
    intro x hx
    have := (List.mem_filter.1 hx).2
    simp only [Bool.not_eq_true'] at this
    simp [this]
  simp [h]

/-- C6: for a workload UID with no PreparedState entry, UnprepareDevice
returns success and performs no namespace (or file) operation; when an entry
exists, the successful UnprepareDevice removes it — for both the hostdevice
and node agent drivers. -/
theorem c6_unprepare_idempotent (t : PreparedTable) (uid : String) :
    (lookupPrepared t uid = none →
      frameworkUnprepare hostdeviceUnprepareDevice t uid
          = (t, { err := none, nsOps := 0, fileWrites := [] })
      ∧ frameworkUnprepare nodeAgentUnprepareDevice t uid
          = (t, { err := none, nsOps := 0, fileWrites := [] }))
    ∧ (∀ d, lookupPrepared t uid = some d →
        (frameworkUnprepare hostdeviceUnprepareDevice t uid).2.err = none
        ∧ lookupPrepared (frameworkUnprepare hostdeviceUnprepareDevice t uid).1 uid = none
        ∧ (frameworkUnprepare nodeAgentUnprepareDevice t uid).2.err = none
        ∧ lookupPrepared (frameworkUnprepare nodeAgentUnprepareDevice t uid).1 uid = none) := by
  constructor
  · intro h
    constructor <;> simp [frameworkUnprepare, h]
  · intro d h
    refine ⟨?_, ?_, ?_, ?_⟩ <;>
      simp [frameworkUnprepare, h, hostdeviceUnprepareDevice, nodeAgentUnprepareDevice,
        lookupPrepared_remove]

theorem c6_unprepare_idempotent_witness :
    lookupPrepared (frameworkUnprepare hostdeviceUnprepareDevice tblC "uid-1").1 "uid-1" = none
    ∧ frameworkUnprepare hostdeviceUnprepareDevice { entries := [] } "uid-9"
        = ({ entries := [] }, { err := none, nsOps := 0, fileWrites := [] }) :=
  ⟨((c6_unprepare_idempotent tblC "uid-1").2 "eth1" rfl).2.1,
   ((c6_unprepare_idempotent { entries := [] } "uid-9").1 rfl).1⟩

/-! ## C2 -/

/-- C2 as stated is false on the code: with a macvlan slave of eth0 active,
requesting an ipvlan slave on the same parent fails without altering any
namespace state, but the error is the generic link-creation error wrapping
the kernel busy message — it does not name the existing slave mavlan-eth0. -/
theorem c2_counterexample :
    addIPVlan stA "/run/netns/pod2" "eth0" 0
        = (stA, some ("failed to create the ipvaln-eth0 ipvlan interface: " ++ deviceBusyMsg))
    ∧ strContainsSub ("failed to create the ipvaln-eth0 ipvlan interface: " ++ deviceBusyMsg)
        "mavlan-eth0" = false := by
  exact ⟨rfl, rfl⟩

theorem kernelLinkAdd_ipvlan_busy {st : NetState} {l : Link} {p : Nat}
    (hkind : l.kind = .ipvlanK p)
    (hnoclash : hasLinkKey st l.ns l.name = false)
    (hconf : st.links.any (macvlanSlaveOn p) = true) :
    kernelLinkAdd st l = Except.error deviceBusyMsg := by
  unfold kernelLinkAdd
  rw [if_neg (by simp [hnoclash]), hkind]
  simp [hconf]

theorem kernelLinkAdd_macvlan_busy {st : NetState} {l : Link} {p : Nat}
    (hkind : l.kind = .macvlanK p)
    (hnoclash : hasLinkKey st l.ns l.name = false)
    (hconf : st.links.any (ipvlanSlaveOn p) = true) :
    kernelLinkAdd st l = Except.error deviceBusyMsg := by
  unfold kernelLinkAdd
  rw [if_neg (by simp [hnoclash]), hkind]
  simp [hconf]

/-- C2 amended: a MoveIn requesting a slave of one sub-interface kind on a
parent link that already has an active slave of the other kind — ipvlan
requested while a macvlan slave is active, or macvlan requested while an
ipvlan slave is active — fails and alters neither host nor target namespace
state, but the error is the generic link-creation error that names the slave
being created and wraps the kernel busy error — it does not name the
existing slave. -/
theorem c2_conflict_generic_error (st : NetState) (path dev : String) (mode : Nat)
    (pl : Link)
    (hns : path ∈ st.namespaces)
    (hpl : findLink st hostNsPath dev = some pl) :
    (st.links.any (macvlanSlaveOn pl.index) = true →
      hasLinkKey st path ("ipvaln-" ++ dev) = false →
      addIPVlan st path dev mode
        = (st, some ("failed to create the " ++ ("ipvaln-" ++ dev)
            ++ " ipvlan interface: " ++ deviceBusyMsg)))
    ∧ (st.links.any (ipvlanSlaveOn pl.index) = true →
      hasLinkKey st path ("mavlan-" ++ dev) = false →
      addMacVlan st path dev mode
        = (st, some ("failed to create the " ++ ("mavlan-" ++ dev)
            ++ " macvlan interface: " ++ deviceBusyMsg))) := by
  have hsome : netnsGetFromPath st path = some path := by
    unfold netnsGetFromPath
    rw [if_pos (by simpa using hns)]
  constructor
  · intro hconf hnoclash
    have hbusy : kernelLinkAdd st (ipvlanSlaveOf st path dev mode pl.index)
        = Except.error deviceBusyMsg :=
      kernelLinkAdd_ipvlan_busy rfl (by simpa [ipvlanSlaveOf] using hnoclash) hconf
    simp only [addIPVlan, hsome, hpl, hbusy]
  · intro hconf hnoclash
    have hbusy : kernelLinkAdd st (macvlanSlaveOf st path dev mode pl.index)
        = Except.error deviceBusyMsg :=
      kernelLinkAdd_macvlan_busy rfl (by simpa [macvlanSlaveOf] using hnoclash) hconf
    simp only [addMacVlan, hsome, hpl, hbusy]

theorem c2_conflict_generic_error_witness :
    addIPVlan stA "/run/netns/pod1" "eth0" 2
      = (stA, some ("failed to create the " ++ ("ipvaln-" ++ "eth0")
          ++ " ipvlan interface: " ++ deviceBusyMsg))
    ∧ addMacVlan stA2 "/run/netns/pod1" "eth0" 2
      = (stA2, some ("failed to create the " ++ ("mavlan-" ++ "eth0")
          ++ " macvlan interface: " ++ deviceBusyMsg)) :=
  ⟨(c2_conflict_generic_error stA "/run/netns/pod1" "eth0" 2 eth0L
      (by simp [stA]) rfl).1 (by decide) (by decide),
   (c2_conflict_generic_error stA2 "/run/netns/pod1" "eth0" 2 eth0L
      (by simp [stA2]) rfl).2 (by decide) (by decide)⟩

/-! ## C8 -/

theorem kernelLinkAdd_ok {st st2 : NetState} {l : Link}
    (h : kernelLinkAdd st l = Except.ok st2) :
    hasLinkKey st l.ns l.name = false ∧ st2 = { st with links := st.links ++ [l] } := by
  unfold kernelLinkAdd at h
  split at h
  · exact absurd h (by simp)
  · rename_i hk
    refine ⟨by simpa using hk, ?_⟩
    split at h
    · split at h
      · exact absurd h (by simp)
      · exact (Except.ok.inj h).symm
    · split at h
      · exact absurd h (by simp)
      · exact (Except.ok.inj h).symm
    · exact (Except.ok.inj h).symm

theorem netnsGetFromPath_some {st : NetState} {path r : String}
    (h : netnsGetFromPath st path = some r) : r = path ∧ path ∈ st.namespaces := by
  unfold netnsGetFromPath at h
  by_cases hc : st.namespaces.contains path = true
  · rw [if_pos hc] at h
    exact ⟨(Option.some.inj h).symm, by simpa using hc⟩
  · rw [if_neg hc] at h
    exact absurd h (by simp)

theorem addMacVlan_ok {st st2 : NetState} {path dev : String} {mode : Nat}
    (h : addMacVlan st path dev mode = (st2, none)) :
    ∃ pl, findLink st hostNsPath dev = some pl
      ∧ path ∈ st.namespaces
      ∧ hasLinkKey st path ("mavlan-" ++ dev) = false
      ∧ st2 = { st with links := st.links ++ [macvlanSlaveOf st path dev mode pl.index] } := by
  unfold addMacVlan at h
  split at h
  · exact absurd (congrArg Prod.snd h) (by simp)
  · rename_i containerNs hg
    obtain ⟨hcn, hmem⟩ := netnsGetFromPath_some hg
    subst hcn
    split at h
    · exact absurd (congrArg Prod.snd h) (by simp)
    · rename_i pl hf
      split at h
      · exact absurd (congrArg Prod.snd h) (by simp)
      · rename_i st3 hk
        have hst : st3 = st2 := congrArg Prod.fst h
        obtain ⟨hkey, hlinks⟩ := kernelLinkAdd_ok hk
        exact ⟨pl, hf, hmem, by simpa [macvlanSlaveOf] using hkey, hst ▸ hlinks⟩

theorem addIPVlan_ok {st st2 : NetState} {path dev : String} {mode : Nat}
    (h : addIPVlan st path dev mode = (st2, none)) :
    ∃ pl, findLink st hostNsPath dev = some pl
      ∧ path ∈ st.namespaces
      ∧ hasLinkKey st path ("ipvaln-" ++ dev) = false
      ∧ st2 = { st with links := st.links ++ [ipvlanSlaveOf st path dev mode pl.index] } := by
  unfold addIPVlan at h
  split at h
  · exact absurd (congrArg Prod.snd h) (by simp)
  · rename_i containerNs hg
    obtain ⟨hcn, hmem⟩ := netnsGetFromPath_some hg
    subst hcn
    split at h
    · exact absurd (congrArg Prod.snd h) (by simp)
    · rename_i pl hf
      split at h
      · exact absurd (congrArg Prod.snd h) (by simp)
      · rename_i st3 hk
        have hst : st3 = st2 := congrArg Prod.fst h
        obtain ⟨hkey, hlinks⟩ := kernelLinkAdd_ok hk
        exact ⟨pl, hf, hmem, by simpa [ipvlanSlaveOf] using hkey, hst ▸ hlinks⟩

/-- C8: a successful macvlan or ipvlan MoveIn creates exactly one new slave
link parented to the named host link and placed in the target namespace; the
parent link remains present and unchanged in the host namespace, and no
other host interface is modified (the host inventory is exactly as before). -/
theorem c8_subinterface_frame (st st2 : NetState) (path dev : String) (mode : Nat)
    (hhost : hostNsPath ∉ st.namespaces) :
    (addMacVlan st path dev mode = (st2, none) →
      ∃ pl, findLink st hostNsPath dev = some pl
        ∧ pl ∈ st2.links
        ∧ st2.namespaces = st.namespaces
        ∧ st2.links = st.links ++ [macvlanSlaveOf st path dev mode pl.index]
        ∧ (macvlanSlaveOf st path dev mode pl.index).ns = path
        ∧ (macvlanSlaveOf st path dev mode pl.index).kind = LinkKind.macvlanK pl.index
        ∧ hostLinks st2 = hostLinks st)
    ∧ (addIPVlan st path dev mode = (st2, none) →
      ∃ pl, findLink st hostNsPath dev = some pl
        ∧ pl ∈ st2.links
        ∧ st2.namespaces = st.namespaces
        ∧ st2.links = st.links ++ [ipvlanSlaveOf st path dev mode pl.index]
        ∧ (ipvlanSlaveOf st path dev mode pl.index).ns = path
        ∧ (ipvlanSlaveOf st path dev mode pl.index).kind = LinkKind.ipvlanK pl.index
        ∧ hostLinks st2 = hostLinks st) := by
  constructor
  · intro h
    obtain ⟨pl, hf, hmem, hkey, hst⟩ := addMacVlan_ok h
    have hpne : path ≠ hostNsPath := fun he => hhost (he ▸ hmem)
    subst hst
    refine ⟨pl, hf, List.mem_append_left _ (findLink_some hf).1, rfl, rfl, rfl, rfl, ?_⟩
    simp [hostLinks, List.filter_append, macvlanSlaveOf, hpne]
  · intro h
    obtain ⟨pl, hf, hmem, hkey, hst⟩ := addIPVlan_ok h
    have hpne : path ≠ hostNsPath := fun he => hhost (he ▸ hmem)
    subst hst
    refine ⟨pl, hf, List.mem_append_left _ (findLink_some hf).1, rfl, rfl, rfl, rfl, ?_⟩
    simp [hostLinks, List.filter_append, ipvlanSlaveOf, hpne]

theorem c8_subinterface_frame_witness :
    ∃ pl, findLink stB hostNsPath "eth1" = some pl
      ∧ pl ∈ (addMacVlan stB "/run/netns/pod1" "eth1" 0).1.links
      ∧ (addMacVlan stB "/run/netns/pod1" "eth1" 0).1.namespaces = stB.namespaces
      ∧ (addMacVlan stB "/run/netns/pod1" "eth1" 0).1.links
          = stB.links ++ [macvlanSlaveOf stB "/run/netns/pod1" "eth1" 0 pl.index]
      ∧ (macvlanSlaveOf stB "/run/netns/pod1" "eth1" 0 pl.index).ns = "/run/netns/pod1"
      ∧ (macvlanSlaveOf stB "/run/netns/pod1" "eth1" 0 pl.index).kind = LinkKind.macvlanK pl.index
      ∧ hostLinks (addMacVlan stB "/run/netns/pod1" "eth1" 0).1 = hostLinks stB :=
  (c8_subinterface_frame stB (addMacVlan stB "/run/netns/pod1" "eth1" 0).1
    "/run/netns/pod1" "eth1" 0 (by decide)).1 rfl

/-! ## C4: mover round-trip -/

theorem nsAttachNetdev_ok {st st1 : NetState} {h ns d : String}
    (hat : nsAttachNetdev st h ns d = (st1, none)) :
    ∃ l, findLink st hostNsPath h = some l
      ∧ ns ∈ st.namespaces
      ∧ findLink st ns d = none
      ∧ st1 = { st with links := st.links.erase l ++ [{ l with ns := ns, name := d }] } := by
  unfold nsAttachNetdev at hat
  split at hat
  · exact absurd (congrArg Prod.snd hat) (by simp)
  · rename_i containerNs hg
    obtain ⟨hcn, hmem⟩ := netnsGetFromPath_some hg
    subst hcn
    split at hat
    · exact absurd (congrArg Prod.snd hat) (by simp)
    · rename_i l hf
      split at hat
      · exact absurd (congrArg Prod.snd hat) (by simp)
      · rename_i hclash
        exact ⟨l, hf, hmem, hclash, (congrArg Prod.fst hat).symm⟩

theorem nsDetachNetdev_eval {st : NetState} {ns cur host : String} {l : Link}
    (hfind : findLink st ns cur = some l)
    (hns : ns ∈ st.namespaces) :
    nsDetachNetdev st ns cur host
      = match findLink st hostNsPath host with
        | some _ => (st, some fileExistsMsg)
        | none => ({ st with
            links := st.links.erase l ++ [{ l with ns := hostNsPath, name := host }] }, none) := by
  unfold nsDetachNetdev
  have hsome : netnsGetFromPath st ns = some ns := by
    unfold netnsGetFromPath
    rw [if_pos (by simpa using hns)]
  simp only [hsome, hfind]

theorem deleteSlaveLink_eval {st : NetState} {ns cur : String} {l : Link}
    (hfind : findLink st ns cur = some l)
    (hns : ns ∈ st.namespaces) :
    deleteSlaveLink st ns cur = ({ st with links := st.links.erase l }, none) := by
  unfold deleteSlaveLink
  have hsome : netnsGetFromPath st ns = some ns := by
    unfold netnsGetFromPath
    rw [if_pos (by simpa using hns)]
  simp only [hsome, hfind]

theorem findLink_eq_none_of_hasLinkKey {st : NetState} {ns name : String}
    (h : hasLinkKey st ns name = false) : findLink st ns name = none := by
  unfold hasLinkKey at h
  unfold findLink
  rw [List.find?_eq_none]
  intro x hx hp
  have hany : st.links.any (fun l => l.ns == ns && l.name == name) = true :=
    List.any_eq_true.2 ⟨x, hx, hp⟩
  rw [h] at hany
  cases hany

theorem not_mem_of_hasLinkKey {st : NetState} {ns name : String} {x : Link}
    (hkey : hasLinkKey st ns name = false) (hx1 : x.ns = ns) (hx2 : x.name = name) :
    x ∉ st.links := by
  intro hmem
  have := findLink_eq_none.1 (findLink_eq_none_of_hasLinkKey hkey) x hmem
  exact this ⟨hx1, hx2⟩

theorem not_mem_erase_of_findLink_none {st : NetState} {ns d : String} {l x : Link}
    (hclash : findLink st ns d = none) (hx1 : x.ns = ns) (hx2 : x.name = d) :
    x ∉ st.links.erase l := by
  intro hmem
  have := findLink_eq_none.1 hclash x ((List.erase_sublist l st.links).subset hmem)
  exact this ⟨hx1, hx2⟩

theorem findLink_after_attach {st : NetState} {ns d : String} {l : Link}
    (hclash : findLink st ns d = none) :
    findLink { st with links := st.links.erase l ++ [{ l with ns := ns, name := d }] } ns d
      = some { l with ns := ns, name := d } := by
  unfold findLink
  rw [List.find?_append]
  have h1 : (st.links.erase l).find? (fun x => x.ns == ns && x.name == d) = none := by
    rw [List.find?_eq_none]
    intro x hx hp
    simp only [Bool.and_eq_true, beq_iff_eq] at hp
    exact not_mem_erase_of_findLink_none hclash hp.1 hp.2 hx
  rw [h1]
  simp

theorem findLink_append_slave {st : NetState} {ns name : String} {slave : Link}
    (hkey : hasLinkKey st ns name = false)
    (h1 : slave.ns = ns) (h2 : slave.name = name) :
    findLink { st with links := st.links ++ [slave] } ns name = some slave := by
  unfold findLink
  rw [List.find?_append]
  rw [show st.links.find? (fun x => x.ns == ns && x.name == name) = none from
    findLink_eq_none_of_hasLinkKey hkey]
  simp [List.find?, h1, h2]

/-- C4: for every interface name and every mode, a successful MoveIn followed
by a successful MoveOut restores the host namespace inventory to exactly its
pre-MoveIn contents (same links up to order); in direct mode the MoveIn
removes the interface from the host inventory and makes it appear in the
target namespace, and the MoveOut restores the original link. -/
theorem c4_move_roundtrip (st st1 st2 : NetState) (mode : MoveMode) (h ns d : String)
    (hin : moveIn st h ns d mode = (st1, none))
    (hout : moveOut st1 ns (targetIfaceName mode h d) h mode = (st2, none)) :
    st2.links.Perm st.links
    ∧ (hostLinks st2).Perm (hostLinks st)
    ∧ (mode = MoveMode.direct →
        (∀ l ∈ hostLinks st1, l.name ≠ h)
        ∧ (∃ l ∈ st1.links, l.ns = ns ∧ l.name = d)
        ∧ (∃ l, findLink st hostNsPath h = some l ∧ l ∈ st2.links)) := by
  cases mode with
  | direct =>
    obtain ⟨l, hf, hmem, hclash, hst1⟩ := nsAttachNetdev_ok hin
    subst hst1
    have hfind1 := findLink_after_attach (l := l) hclash
    simp only [moveOut, targetIfaceName] at hout
    rw [nsDetachNetdev_eval hfind1 hmem] at hout
    cases hy : findLink { st with
        links := st.links.erase l ++ [{ l with ns := ns, name := d }] } hostNsPath h with
    | some y =>
      rw [hy] at hout
      exact absurd (congrArg Prod.snd hout) (by simp)
    | none =>
      rw [hy] at hout
      have hst2 : st2 = { st with
          links := (st.links.erase l ++ [{ l with ns := ns, name := d }]).erase
              { l with ns := ns, name := d }
            ++ [{ ({ l with ns := ns, name := d } : Link) with
                  ns := hostNsPath, name := h }] } :=
        (congrArg Prod.fst hout).symm
      have hlid : ({ ({ l with ns := ns, name := d } : Link) with
          ns := hostNsPath, name := h } : Link) = l := by
        obtain ⟨-, hn, hm⟩ := findLink_some hf
        cases l
        simp_all
      have hnotmem : ({ l with ns := ns, name := d } : Link) ∉ st.links.erase l :=
        not_mem_erase_of_findLink_none hclash rfl rfl
      have herase : (st.links.erase l ++ [{ l with ns := ns, name := d }]).erase
          { l with ns := ns, name := d } = st.links.erase l := by
        rw [List.erase_append_right _ hnotmem, List.erase_cons_head]
        simp
      have hmeml : l ∈ st.links := (findLink_some hf).1
      have hperm : st2.links.Perm st.links := by
        rw [hst2, herase, hlid]
        exact (List.perm_append_singleton l (st.links.erase l)).trans
          (List.perm_cons_erase hmeml).symm
      refine ⟨hperm, hperm.filter _, fun _ => ⟨?_, ?_, ?_⟩⟩
      · intro x hx
        obtain ⟨hxmem, hxns⟩ := List.mem_filter.1 hx
        intro hxname
        exact findLink_eq_none.1 hy x hxmem ⟨by simpa using hxns, hxname⟩
      · exact ⟨{ l with ns := ns, name := d },
          List.mem_append_right _ (by simp), rfl, rfl⟩
      · refine ⟨l, hf, ?_⟩
        rw [hst2, herase, hlid]
        exact List.mem_append_right _ (by simp)
  | macvlanMode =>
    obtain ⟨pl, hf, hmem, hkey, hst1⟩ := addMacVlan_ok hin
    subst hst1
    have hfind1 : findLink { st with
        links := st.links ++ [macvlanSlaveOf st ns h 0 pl.index] } ns ("mavlan-" ++ h)
        = some (macvlanSlaveOf st ns h 0 pl.index) :=
      findLink_append_slave hkey rfl rfl
    rw [show targetIfaceName MoveMode.macvlanMode h d = "mavlan-" ++ h from rfl] at hout
    rw [show moveOut { st with links := st.links ++ [macvlanSlaveOf st ns h 0 pl.index] }
        ns ("mavlan-" ++ h) h MoveMode.macvlanMode
        = deleteSlaveLink { st with links := st.links ++ [macvlanSlaveOf st ns h 0 pl.index] }
            ns ("mavlan-" ++ h) from rfl] at hout
    rw [deleteSlaveLink_eval hfind1 hmem] at hout
    have hnotmem : macvlanSlaveOf st ns h 0 pl.index ∉ st.links :=
      not_mem_of_hasLinkKey hkey rfl rfl
    have herase : (st.links ++ [macvlanSlaveOf st ns h 0 pl.index]).erase
        (macvlanSlaveOf st ns h 0 pl.index) = st.links := by
      rw [List.erase_append_right _ hnotmem, List.erase_cons_head]
      simp
    have hst2 : st2 = { st with links := st.links } := by
      have := (congrArg Prod.fst hout).symm
      rw [herase] at this
      exact this
    have hperm : st2.links.Perm st.links := by
      rw [hst2]
    refine ⟨hperm, hperm.filter _, fun hmode => by cases hmode⟩
  | ipvlanMode =>
    obtain ⟨pl, hf, hmem, hkey, hst1⟩ := addIPVlan_ok hin
    subst hst1
    have hfind1 : findLink { st with
        links := st.links ++ [ipvlanSlaveOf st ns h 0 pl.index] } ns ("ipvaln-" ++ h)
        = some (ipvlanSlaveOf st ns h 0 pl.index) :=
      findLink_append_slave hkey rfl rfl
    rw [show targetIfaceName MoveMode.ipvlanMode h d = "ipvaln-" ++ h from rfl] at hout
    rw [show moveOut { st with links := st.links ++ [ipvlanSlaveOf st ns h 0 pl.index] }
        ns ("ipvaln-" ++ h) h MoveMode.ipvlanMode
        = deleteSlaveLink { st with links := st.links ++ [ipvlanSlaveOf st ns h 0 pl.index] }
            ns ("ipvaln-" ++ h) from rfl] at hout
    rw [deleteSlaveLink_eval hfind1 hmem] at hout
    have hnotmem : ipvlanSlaveOf st ns h 0 pl.index ∉ st.links :=
      not_mem_of_hasLinkKey hkey rfl rfl
    have herase : (st.links ++ [ipvlanSlaveOf st ns h 0 pl.index]).erase
        (ipvlanSlaveOf st ns h 0 pl.index) = st.links := by
      rw [List.erase_append_right _ hnotmem, List.erase_cons_head]
      simp
    have hst2 : st2 = { st with links := st.links } := by
      have := (congrArg Prod.fst hout).symm
      rw [herase] at this
      exact this
    have hperm : st2.links.Perm st.links := by
      rw [hst2]
    refine ⟨hperm, hperm.filter _, fun hmode => by cases hmode⟩

theorem c4_move_roundtrip_witness :
    ((nsDetachNetdev (nsAttachNetdev stB "eth1" "/run/netns/pod1" "eth1").1
        "/run/netns/pod1" "eth1" "eth1").1.links).Perm stB.links
    ∧ (hostLinks (nsDetachNetdev (nsAttachNetdev stB "eth1" "/run/netns/pod1" "eth1").1
        "/run/netns/pod1" "eth1" "eth1").1).Perm (hostLinks stB)
    ∧ (MoveMode.direct = MoveMode.direct →
        (∀ l ∈ hostLinks (nsAttachNetdev stB "eth1" "/run/netns/pod1" "eth1").1, l.name ≠ "eth1")
        ∧ (∃ l ∈ (nsAttachNetdev stB "eth1" "/run/netns/pod1" "eth1").1.links,
            l.ns = "/run/netns/pod1" ∧ l.name = "eth1")
        ∧ (∃ l, findLink stB hostNsPath "eth1" = some l
            ∧ l ∈ (nsDetachNetdev (nsAttachNetdev stB "eth1" "/run/netns/pod1" "eth1").1
                "/run/netns/pod1" "eth1" "eth1").1.links)) :=
  c4_move_roundtrip stB (nsAttachNetdev stB "eth1" "/run/netns/pod1" "eth1").1
    (nsDetachNetdev (nsAttachNetdev stB "eth1" "/run/netns/pod1" "eth1").1
      "/run/netns/pod1" "eth1" "eth1").1
    MoveMode.direct "eth1" "/run/netns/pod1" "eth1" rfl rfl

/-! ## C3: Configuring rollback -/

theorem keyUnique_of_pairwise :
    ∀ (ls : List Link), ls.Pairwise (fun a b => a.ns ≠ b.ns ∨ a.name ≠ b.name) →
      ∀ x y : Link, x ∈ ls → y ∈ ls → x.ns = y.ns → x.name = y.name → x = y := by
  intro ls
  induction ls with
  | nil =>
    intro _ x y hx
    cases hx
  | cons a t ih =>
    intro hp x y hx hy hns hname
    obtain ⟨ha, ht⟩ := List.pairwise_cons.1 hp
    rcases List.mem_cons.1 hx with rfl | hx2
    · rcases List.mem_cons.1 hy with rfl | hy2
      · rfl
      · rcases ha y hy2 with hc | hc
        · exact absurd hns hc
        · exact absurd hname hc
    · rcases List.mem_cons.1 hy with rfl | hy2
      · rcases ha x hx2 with hc | hc
        · exact absurd hns.symm hc
        · exact absurd hname.symm hc
      · exact ih ht x y hx2 hy2 hns hname

theorem nsAttachNetdev_err {st st1 : NetState} {h ns d : String} {e : String}
    (hat : nsAttachNetdev st h ns d = (st1, some e)) : st1 = st := by
  unfold nsAttachNetdev at hat
  split at hat
  · exact (congrArg Prod.fst hat).symm
  · split at hat
    · exact (congrArg Prod.fst hat).symm
    · split at hat
      · exact (congrArg Prod.fst hat).symm
      · exact absurd (congrArg Prod.snd hat) (by simp)

theorem WFNet_attach {st st1 : NetState} {h ns d : String}
    (hwf : WFNet st) (hat : nsAttachNetdev st h ns d = (st1, none)) :
    WFNet st1 ∧ st1.namespaces = st.namespaces := by
  obtain ⟨l, hf, hmem, hclash, hst1⟩ := nsAttachNetdev_ok hat
  subst hst1
  obtain ⟨hpair, hvalid, hhost⟩ := hwf
  refine ⟨⟨?_, ?_, hhost⟩, rfl⟩
  · rw [List.pairwise_append]
    refine ⟨hpair.sublist (List.erase_sublist l st.links), by simp, ?_⟩
    intro a ha b hb
    rw [List.mem_singleton] at hb
    subst hb
    have hnk := findLink_eq_none.1 hclash a ((List.erase_sublist l st.links).subset ha)
    by_cases hc : a.ns = ns
    · right
      intro hc2
      exact hnk ⟨hc, hc2⟩
    · left
      exact hc
  · intro x hx
    rcases List.mem_append.1 hx with hx2 | hx2
    · exact hvalid x ((List.erase_sublist l st.links).subset hx2)
    · rw [List.mem_singleton] at hx2
      subst hx2
      exact Or.inr hmem

theorem WFNet_of_perm {st st2 : NetState}
    (hwf : WFNet st) (hperm : st2.links.Perm st.links)
    (hns : st2.namespaces = st.namespaces) : WFNet st2 := by
  obtain ⟨hpair, hvalid, hhost⟩ := hwf
  refine ⟨?_, ?_, hns ▸ hhost⟩
  · exact (List.Perm.pairwise_iff (fun hr => hr.imp Ne.symm Ne.symm) hperm).2 hpair
  · intro x hx
    rw [hns]
    exact hvalid x (hperm.subset hx)

/-- After a successful direct MoveIn of device d and any later permutation-
preserving work, moving d back out succeeds and restores the original link
multiset. -/
theorem rollback_detach {st st1 st2 : NetState} {ns d : String}
    (hwf : WFNet st)
    (hat : nsAttachNetdev st d ns d = (st1, none))
    (hperm : st2.links.Perm st1.links)
    (hnseq : st2.namespaces = st1.namespaces) :
    ∃ st3, nsDetachNetdev st2 ns d d = (st3, none)
      ∧ st3.links.Perm st.links ∧ st3.namespaces = st.namespaces := by
  obtain ⟨l, hf, hmem, hclash, hst1⟩ := nsAttachNetdev_ok hat
  obtain ⟨hlmem, hlns, hlname⟩ := findLink_some hf
  have hwf1 := WFNet_attach hwf hat
  have hwf2 : WFNet st2 := WFNet_of_perm hwf1.1 hperm hnseq
  obtain ⟨hpair, hvalid, hhost⟩ := hwf
  subst hst1
  have hl'mem1 : ({ l with ns := ns, name := d } : Link) ∈ st2.links :=
    hperm.mem_iff.2 (List.mem_append_right _ (by simp))
  have hnmem2 : ns ∈ st2.namespaces := by
    rw [hnseq]
    exact hmem
  have hfind2 : findLink st2 ns d = some { l with ns := ns, name := d } := by
    cases hfd : findLink st2 ns d with
    | none => exact absurd ⟨rfl, rfl⟩ (findLink_eq_none.1 hfd _ hl'mem1)
    | some x =>
      obtain ⟨hxmem, hxns, hxname⟩ := findLink_some hfd
      have hxl : x = { l with ns := ns, name := d } :=
        keyUnique_of_pairwise st2.links hwf2.1 x _ hxmem hl'mem1
          (hxns.trans rfl) (hxname.trans rfl)
      rw [hxl]
  have hnsne : ns ≠ hostNsPath := fun hq => hhost (hq ▸ hmem)
  have hlnotin : l ∉ st.links.erase l := by
    intro hin
    have hp2 : (l :: st.links.erase l).Pairwise
        (fun a b => a.ns ≠ b.ns ∨ a.name ≠ b.name) :=
      (List.Perm.pairwise_iff (fun hr => hr.imp Ne.symm Ne.symm)
        (List.perm_cons_erase hlmem).symm).2 hpair
    rcases (List.pairwise_cons.1 hp2).1 l hin with hc | hc
    · exact hc rfl
    · exact hc rfl
  have hdnone : findLink st2 hostNsPath d = none := by
    rw [findLink_eq_none]
    intro x hx hcon
    have hx1 : x ∈ st.links.erase l ++ [{ l with ns := ns, name := d }] := hperm.subset hx
    rcases List.mem_append.1 hx1 with hx2 | hx2
    · have hxst : x ∈ st.links := (List.erase_sublist l st.links).subset hx2
      have hxl : x = l := keyUnique_of_pairwise st.links hpair x l hxst hlmem
        (hcon.1.trans hlns.symm) (hcon.2.trans hlname.symm)
      exact hlnotin (hxl ▸ hx2)
    · rw [List.mem_singleton] at hx2
      subst hx2
      exact hnsne hcon.1
  have hl3 : ({ ({ l with ns := ns, name := d } : Link) with
      ns := hostNsPath, name := d } : Link) = l := by
    cases l
    simp_all
  have hnotml' : ({ l with ns := ns, name := d } : Link) ∉ st.links.erase l :=
    not_mem_erase_of_findLink_none hclash rfl rfl
  refine ⟨{ st2 with links := st2.links.erase { l with ns := ns, name := d }
      ++ [{ ({ l with ns := ns, name := d } : Link) with
            ns := hostNsPath, name := d }] }, ?_, ?_, ?_⟩
  · rw [nsDetachNetdev_eval hfind2 hnmem2, hdnone]
  · rw [hl3]
    have hstep : (st.links.erase l ++ [{ l with ns := ns, name := d }]).erase
        { l with ns := ns, name := d } = st.links.erase l := by
      rw [List.erase_append_right _ hnotml', List.erase_cons_head, List.append_nil]
    refine List.Perm.trans ((hperm.erase _).append_right _) ?_
    rw [hstep]
    exact (List.perm_append_singleton _ _).trans (List.perm_cons_erase hlmem).symm
  · exact hnseq.trans rfl

theorem configureDevices_fail (ns : String) :
    ∀ (devs : List String) (st stF : NetState) (e : String),
      WFNet st → configureDevices st ns devs = (stF, some e) →
      stF.links.Perm st.links ∧ stF.namespaces = st.namespaces := by
  intro devs
  induction devs with
  | nil =>
    intro st stF e hwf hc
    simp [configureDevices] at hc
  | cons d rest ih =>
    intro st stF e hwf hc
    unfold configureDevices at hc
    split at hc
    · rename_i st1 e1 hat
      have h1 := nsAttachNetdev_err hat
      have h2 : st1 = stF := congrArg Prod.fst hc
      subst h1
      subst h2
      exact ⟨List.Perm.refl _, rfl⟩
    · rename_i st1 hat
      split at hc
      · rename_i st2 hrec
        exact absurd (congrArg Prod.snd hc) (by simp)
      · rename_i st2 e2 hrec
        have hwf1 := WFNet_attach hwf hat
        have hih := ih st1 st2 e2 hwf1.1 hrec
        obtain ⟨st3, hdet, hp3, hn3⟩ := rollback_detach hwf hat hih.1 hih.2
        rw [hdet] at hc
        have h4 : st3 = stF := congrArg Prod.fst hc
        exact ⟨h4 ▸ hp3, h4 ▸ hn3⟩

/-- C3: when the Configuring transition moves a workload's devices in order
and a later MoveIn fails, every device already moved is moved back before
the failure is reported: on failure the host namespace inventory (indeed the
whole link multiset) is exactly as before the transition began. -/
theorem c3_configuring_rollback (st stF : NetState) (ns : String)
    (devs : List String) (e : String)
    (hwf : WFNet st) (hfail : configureDevices st ns devs = (stF, some e)) :
    (hostLinks stF).Perm (hostLinks st) ∧ stF.links.Perm st.links :=
  ⟨((configureDevices_fail ns devs st stF e hwf hfail).1).filter _,
   (configureDevices_fail ns devs st stF e hwf hfail).1⟩

theorem c3_configuring_rollback_witness :
    (hostLinks (configureDevices stB "/run/netns/pod1" ["eth1", "eth2"]).1).Perm (hostLinks stB)
    ∧ ((configureDevices stB "/run/netns/pod1" ["eth1", "eth2"]).1.links).Perm stB.links :=
  c3_configuring_rollback stB (configureDevices stB "/run/netns/pod1" ["eth1", "eth2"]).1
    "/run/netns/pod1" ["eth1", "eth2"] "link eth2 not found in host namespace"
    (by decide) rfl

end KND
